import Mathlib

/-!
Verification of the pbsync resolution-and-synchronization engine
(`src/main.go`) against its specification.

The Go program is shallowly embedded: file contents are byte lists,
filesystems are partial maps from path strings to contents, external
effects (glob, `bazel info`, the on-disk cache directory) are explicit
environment parameters, and every fallible Go function becomes a
Lean function returning `Except`.
-/

namespace Pbsync

/-- Byte string: the contents of a file, compared byte for byte. -/
abbrev Bytes := List Nat

/-- A file tree: maps a path to the file contents, `none` when absent. -/
abbrev Fs := String → Option Bytes

/-- Point update of a file tree (models `os.WriteFile`). -/
def updateFs (fs : Fs) (path : String) (b : Bytes) : Fs :=
  fun q => if q = path then some b else fs q

/-- `Except.isOk`: whether a fallible computation succeeded. -/
def isOk {ε α : Type} : Except ε α → Bool
  | .ok _ => true
  | .error _ => false

instance {ε α : Type} [DecidableEq ε] [DecidableEq α] : DecidableEq (Except ε α) := fun a b =>
  match a, b with
  | .ok x, .ok y => if h : x = y then .isTrue (by simp [h]) else .isFalse (by simp [h])
  | .error x, .error y => if h : x = y then .isTrue (by simp [h]) else .isFalse (by simp [h])
  | .ok _, .error _ => .isFalse (by simp)
  | .error _, .ok _ => .isFalse (by simp)

/-- Leading-part test on character lists (`charsPre p s` holds when `p`
starts `s`). -/
def charsPre : List Char → List Char → Bool
  | [], _ => true
  | _ :: _, [] => false
  | p :: ps, c :: cs => p = c && charsPre ps cs

/-- Go `strings.HasPrefix s pre`. -/
def strPre (pre s : String) : Bool := charsPre pre.toList s.toList

/-- Go `strings.TrimPrefix s pre`. -/
def trimPre (s pre : String) : String :=
  if strPre pre s then String.mk (s.toList.drop pre.toList.length) else s

/-- Split a character list at every occurrence of `sep`, keeping empty
groups (Go `strings.Split` with a one-character separator). -/
def splitChar (sep : Char) : List Char → List (List Char)
  | [] => [[]]
  | c :: rest =>
    match splitChar sep rest with
    | [] => [[c]]
    | g :: gs => if c = sep then [] :: g :: gs else (c :: g) :: gs

/-- Split a character list at every character satisfying `p`, keeping
empty groups. -/
def splitPred (p : Char → Bool) : List Char → List (List Char)
  | [] => [[]]
  | c :: rest =>
    match splitPred p rest with
    | [] => [[c]]
    | g :: gs => if p c then [] :: g :: gs else (c :: g) :: gs

/-- Join character-list components with slashes. -/
def joinSlash : List (List Char) → List Char
  | [] => []
  | [x] => x
  | x :: xs => x ++ '/' :: joinSlash xs

/-- Go `fmt` `%q` verb, for the plain strings used here (no escaping). -/
def quoteStr (s : String) : String := "\"" ++ s ++ "\""

/-- Collapse runs of slashes (the part of Go `filepath.Clean` exercised
by `filepath.Join` on the dot-free paths this program builds). -/
def collapseSlashes : List Char → List Char
  | [] => []
  | [c] => [c]
  | c₁ :: c₂ :: rest =>
    if c₁ = '/' ∧ c₂ = '/' then collapseSlashes (c₂ :: rest)
    else c₁ :: collapseSlashes (c₂ :: rest)

/-- Go `filepath.Join(a, b)`: empty elements are skipped, the rest are
joined with a slash and cleaned. -/
def joinPath (a b : String) : String :=
  if a = "" then b
  else if b = "" then a
  else String.mk (collapseSlashes (a.toList ++ '/' :: b.toList))

/-- Go `filepath.Base` for the non-degenerate paths used here:
the component after the final slash. -/
def baseName (p : String) : String :=
  String.mk ((splitChar '/' p.toList).getLastD p.toList)

/-- Go `filepath.Dir` for the non-degenerate paths used here:
everything before the final slash, `"."` when there is no slash. -/
def dirName (p : String) : String :=
  let parts := splitChar '/' p.toList
  if parts.length ≤ 1 then "." else String.mk (joinSlash parts.dropLast)

/-! ## The `githubRepoRe` regular expression

`githubRepoRe = ^github.com/(.+?)/(.+?)/` with Go (RE2 / leftmost-first)
semantics: the dot is a wildcard for any character except newline, and
the two lazy groups take the shortest overall anchored match.
`ReplaceAllLiteralString(s, "")` with this anchored pattern removes the
single match at the start of `s`, if any. -/

/-- Scan for the slash terminating a lazy group whose first character
has already been consumed: stop at the first slash, fail at a newline
(the group cannot absorb one) or at the end of input. -/
def lazySegSlash : List Char → Option (List Char)
  | [] => none
  | '/' :: r => some r
  | c :: r => if c = '\n' then none else lazySegSlash r

/-- Lazy `(.+?)/` at the end of the pattern: consume one or more
non-newline characters, as few as possible, then a slash; return the
remainder after that slash. -/
def lazySegEnd : List Char → Option (List Char)
  | [] => none
  | c :: r => if c = '\n' then none else lazySegSlash r

/-- The whole `(.+?)/(.+?)/` suffix of the pattern, with backtracking:
the first lazy group grows until the rest of the pattern matches. -/
def lazyTwoSegs : List Char → Option (List Char)
  | [] => none
  | '/' :: r =>
    match lazySegEnd r with
    | some rem => some rem
    | none => lazyTwoSegs r
  | c :: r => if c = '\n' then none else lazyTwoSegs r

/-- Anchored match of `githubRepoRe` against `cs`; on a match, returns
the characters after the matched text.  The 7th pattern character is
the `.` wildcard (any character but newline). -/
def githubMatch : List Char → Option (List Char)
  | 'g' :: 'i' :: 't' :: 'h' :: 'u' :: 'b' :: x :: 'c' :: 'o' :: 'm' :: '/' :: rest =>
    if x = '\n' then none
    else
      match rest with
      | [] => none
      | c :: r => if c = '\n' then none else lazyTwoSegs r
  | _ => none

/-- `githubRepoRe.ReplaceAllLiteralString(s, "")`: strips the anchored
match, when there is one; otherwise returns `s` unchanged. -/
def stripGithubRepo (s : String) : String :=
  match githubMatch s.toList with
  | some rest => String.mk rest
  | none => s

/-! ## Artifact locator (`languageProtoRule.getSrcAndDest`) -/

/-- Rule-kind constant `goProtoLibrary`. -/
def goProtoLibrary : String := "go_proto_library"

/-- Rule-kind constant `tsProtoLibrary`. -/
def tsProtoLibrary : String := "ts_proto_library"

/-- `languageProtoRule`: one language-specific generation rule. -/
structure LanguageProtoRule where
  kind : String
  name : String
  protoRuleName : String
  importPath : String
deriving DecidableEq

/-- `srcAndDest`: one artifact path with its mirrored destination. -/
structure SrcAndDest where
  src : String
  dest : String
deriving DecidableEq

/-- `(*languageProtoRule).getSrcAndDest`, Go-style multiple return:
the pair list together with an optional error.  `glob` models
`filepath.Glob` (its only possible failure is a malformed pattern). -/
def getSrcAndDest (glob : String → Except String (List String))
    (r : LanguageProtoRule) (workspaceRoot bazelBin protoPath : String) :
    List SrcAndDest × Option String :=
  let protoRelpath := trimPre protoPath workspaceRoot
  if r.kind = goProtoLibrary then
    let wsRelpath := stripGithubRepo r.importPath
    if wsRelpath = r.importPath then
      ([], some ("could not figure out workspace relative path for import "
            ++ quoteStr r.importPath))
    else
      let srcDir := joinPath (joinPath (joinPath bazelBin (dirName protoRelpath))
            (r.name ++ "_")) r.importPath
      match glob (srcDir ++ "/*.pb.go") with
      | .error e => ([], some ("could not find generated go files: " ++ e))
      | .ok srcs =>
        (srcs.map (fun src =>
            { src := src, dest := joinPath (joinPath workspaceRoot wsRelpath) (baseName src) }),
         none)
  else if r.kind = tsProtoLibrary then
    ([{ src := joinPath (joinPath bazelBin (dirName protoRelpath)) (r.name ++ ".d.ts"),
        dest := joinPath (joinPath workspaceRoot (dirName protoRelpath)) (r.name ++ ".d.ts") }],
     none)
  else
    ([], some ("unknown proto rule kind " ++ quoteStr r.kind))

/-! ## Rule-file parser (`parseBuildFile`)

A BUILD file is given to the parser as the list of its rule
declarations, each with the attributes the Go code reads:
`Name()` (empty string when the `name` attribute is missing),
`AttrStrings("srcs")` (`none` when missing or not a list), and
`AttrString` for `proto` / `importpath` (empty string when missing). -/

/-- One rule declaration of a BUILD file, as read by the Go code. -/
structure BuildRule where
  kind : String
  name : String
  srcs : Option (List String)
  proto : String
  importpath : String
deriving DecidableEq

/-- `parsedBuildFile`: the two indexes derived from one BUILD file. -/
structure ParsedBuildFile where
  protoFileToRule : String → Option String
  protoRuleToLangProtoRules : String → Option (List LanguageProtoRule)

/-- `strings.TrimPrefix(src, ":")` applied to a `srcs` entry. -/
def trimColon (s : String) : String := trimPre s ":"

/-- Inner loop over one `proto_library` rule's `srcs`: each entry claims
the source name for the rule; a name already claimed (map value not
`""`) is a fatal error.  Go map indexing defaults to `""`. -/
def addSrcs (path ruleName : String) :
    List String → (String → Option String) → Except String (String → Option String)
  | [], m => .ok m
  | s :: ss, m =>
    let s := trimColon s
    if ((m s).getD "") ≠ "" then
      .error (path ++ ": src file " ++ quoteStr s ++ " appears in multiple proto rules")
    else
      addSrcs path ruleName ss (fun k => if k = s then some ruleName else m k)

/-- First loop of `parseBuildFile`, over the `proto_library` rules:
builds `protoFileToRule`; a rule without a `srcs` list is fatal. -/
def addProtoRules (path : String) :
    List BuildRule → (String → Option String) → Except String (String → Option String)
  | [], m => .ok m
  | r :: rs, m =>
    match r.srcs with
    | none =>
      .error (path ++ ": proto rule " ++ quoteStr r.name ++ " does not have have srcs")
    | some srcs =>
      match addSrcs path r.name srcs m with
      | .error e => .error e
      | .ok m₂ => addProtoRules path rs m₂

/-- The `languageProtoRule` value built for one recognized rule. -/
def mkLangRule (r : BuildRule) : LanguageProtoRule :=
  { kind := r.kind
    name := r.name
    protoRuleName := String.mk (r.proto.toList.drop 1)
    importPath := if r.kind = goProtoLibrary then r.importpath else "" }

/-- Second loop of `parseBuildFile`, over all rules: rules of unknown
kind are skipped; a recognized rule without a `proto` attribute is
fatal; a `proto` reference not starting with `":"` is skipped; a
`go_proto_library` without `importpath` is fatal; otherwise the rule is
appended to the index under the referenced proto rule's name. -/
def addLangRules (path : String) :
    List BuildRule → (String → Option (List LanguageProtoRule)) →
    Except String (String → Option (List LanguageProtoRule))
  | [], m => .ok m
  | r :: rs, m =>
    if r.kind ≠ goProtoLibrary ∧ r.kind ≠ tsProtoLibrary then
      addLangRules path rs m
    else if r.proto = "" then
      .error (path ++ ": go proto rule " ++ quoteStr r.name ++ " missing proto attribute")
    else if ¬ strPre ":" r.proto then
      addLangRules path rs m
    else if r.kind = goProtoLibrary ∧ r.importpath = "" then
      .error (path ++ ": go proto rule " ++ quoteStr r.name ++ " missing importpath attribute")
    else
      let key := String.mk (r.proto.toList.drop 1)
      addLangRules path rs
        (fun k => if k = key then some ((m key).getD [] ++ [mkLangRule r]) else m k)

/-- `parseBuildFile` on an already-read, syntactically parsed BUILD
file: the first loop builds `protoFileToRule` from the `proto_library`
rules, the second builds `protoRuleToLangProtoRules` from all rules. -/
def parseBuildFile (path : String) (rules : List BuildRule) : Except String ParsedBuildFile :=
  match addProtoRules path (rules.filter (fun r => r.kind = "proto_library")) (fun _ => none) with
  | .error e => .error e
  | .ok pf =>
    match addLangRules path rules (fun _ => none) with
    | .error e => .error e
    | .ok lr => .ok { protoFileToRule := pf, protoRuleToLangProtoRules := lr }

/-- `(*parsedBuildFile).getLangProtoRulesForProto`. -/
def getLangProtoRulesForProto (b : ParsedBuildFile) (protoFile : String) :
    Option (List LanguageProtoRule) :=
  match b.protoFileToRule (baseName protoFile) with
  | none => none
  | some protoRule => b.protoRuleToLangProtoRules protoRule

/-- `protoFileToRule` lookup through a parse result (`none` on a parse
error or an absent key). -/
def parsedMap (e : Except String ParsedBuildFile) (k : String) : Option String :=
  match e with
  | .ok b => b.protoFileToRule k
  | .error _ => none

/-! ## Sync engine (`syncProto`)

The build output tree (`art`) and the workspace tree (`fs`) are
separate maps: artifacts are only read, destinations are read and
written.  `result` holds the two outcome counters. -/

/-- `result`: the two outcome counters. -/
structure SyncResult where
  created : Nat
  upToDate : Nat
deriving DecidableEq

/-- The inner pair loop of `syncProto`.  `errPending` is the `err`
returned by `getSrcAndDest` alongside the pair list: the Go code checks
it inside the loop over the pairs, so with an empty pair list a pending
error is never observed. -/
def syncPairList (protoFile : String) (art : Fs) (errPending : Option String) :
    List SrcAndDest → Fs → SyncResult → Except String (Fs × SyncResult)
  | [], fs, res => .ok (fs, res)
  | p :: ps, fs, res =>
    match errPending with
    | some e => .error e
    | none =>
      match art p.src with
      | none => syncPairList protoFile art errPending ps fs res
      | some sb =>
        if sb = [] then
          .error ("file is unexpectedly empty: " ++ protoFile)
        else
          let db := (fs p.dest).getD []
          if sb = db then
            syncPairList protoFile art errPending ps fs
              { res with upToDate := res.upToDate + 1 }
          else
            syncPairList protoFile art errPending ps (updateFs fs p.dest sb)
              { res with created := res.created + 1 }

/-- The outer rule loop of `syncProto`. -/
def syncRules (glob : String → Except String (List String)) (art : Fs)
    (workspaceRoot bazelBin protoFile : String) :
    List LanguageProtoRule → Fs → SyncResult → Except String (Fs × SyncResult)
  | [], fs, res => .ok (fs, res)
  | rule :: rs, fs, res =>
    let pe := getSrcAndDest glob rule workspaceRoot bazelBin protoFile
    match syncPairList protoFile art pe.2 pe.1 fs res with
    | .error e => .error e
    | .ok (fs₂, res₂) => syncRules glob art workspaceRoot bazelBin protoFile rs fs₂ res₂

/-- `syncProto`: looks up the generation rules for the proto (a miss is
a diagnostic, not an error), resolves the bazel-bin directory, then
runs the rule loop. -/
def syncProto (glob : String → Except String (List String)) (art : Fs)
    (bazelBinRes : Except String String) (workspaceRoot protoFile : String)
    (buildFile : ParsedBuildFile) (fs : Fs) (res : SyncResult) :
    Except String (Fs × SyncResult) :=
  match getLangProtoRulesForProto buildFile protoFile with
  | none => .ok (fs, res)
  | some rules =>
    match bazelBinRes with
    | .error e => .error ("failed to determine bazel bin dir: " ++ e)
    | .ok bazelBin => syncRules glob art workspaceRoot bazelBin protoFile rules fs res

/-- Number of pairs whose artifact exists in the build output tree. -/
def countExisting (art : Fs) (pairs : List SrcAndDest) : Nat :=
  (pairs.filter (fun p => (art p.src).isSome)).length

/-! ## Parser cache / deduplicator (`buildFileParser.Parse`)

`Parse` wraps `parseBuildFile` in `singleflight.Group.Do` plus an
RWMutex-guarded result cache.  `singleflight.Do` serializes the
executions for one key (concurrent same-key callers are collapsed onto
a single execution and all receive its result), so every schedule of
same-key `Parse` calls is observationally a sequence of atomic calls;
the embedding makes each call one atomic step on the cache state and
counts how often the underlying parse runs. -/

/-- `buildFileParser`'s cache: path to memoized result (`Result[T]`
holds either the value or the error). -/
structure ParserState where
  cache : String → Option (Except String ParsedBuildFile)

/-- The fresh parser state of `newBuildFileParser`. -/
def newBuildFileParser : ParserState := { cache := fun _ => none }

/-- One `Parse(path)` call: returns the result, the new cache state,
and the number of underlying parses performed (0 or 1).  `parseFn` is
the underlying parse of the file at `path`. -/
def parseStep (parseFn : String → Except String ParsedBuildFile)
    (st : ParserState) (path : String) :
    Except String ParsedBuildFile × ParserState × Nat :=
  match st.cache path with
  | some r => (r, st, 0)
  | none =>
    let r := parseFn path
    (r, { cache := fun q => if q = path then some r else st.cache q }, 1)

/-- A sequence of `Parse` calls: the list of results, the final state,
and the total number of underlying parses. -/
def parseSeq (parseFn : String → Except String ParsedBuildFile) (st : ParserState) :
    List String → List (Except String ParsedBuildFile) × ParserState × Nat
  | [] => ([], st, 0)
  | p :: ps =>
    let s₁ := parseStep parseFn st p
    let s₂ := parseSeq parseFn s₁.2.1 ps
    (s₁.1 :: s₂.1, s₂.2.1, s₁.2.2 + s₂.2.2)

/-! ## On-disk cache and bazel-bin resolver -/

/-- Failure kinds of a file read, as distinguished by `os.IsNotExist`. -/
inductive FileErr where
  | notExist
  | permission
  | other
deriving DecidableEq

/-- The ambient state `cacheGet`/`cacheSet` run against: the user cache
directory lookup, the SHA-256 hex digest primitive, and the reads and
writes of cache files.  A failed `os.ReadFile` returns no bytes (its
open-failure behaviour). -/
structure CacheEnv where
  userCacheDir : Except String String
  digest : String → String
  readFile : String → Except FileErr String
  writeFile : String → String → Except String Unit

/-- `cachePath`: `UserCacheDir()/pbsync/sha256hex(key)`. -/
def cachePath (env : CacheEnv) (key : String) : Except String String :=
  match env.userCacheDir with
  | .error e => .error e
  | .ok userDir => .ok (joinPath (joinPath userDir "pbsync") (env.digest key))

/-- `cacheGet`: a missing cache file is a miss; any other read failure
falls through the `os.IsNotExist` test and returns `string(nil)` with a
nil error, i.e. is also treated as a miss.  Only a `cachePath` failure
is surfaced. -/
def cacheGet (env : CacheEnv) (key : String) : Except String String :=
  match cachePath env key with
  | .error e => .error e
  | .ok path =>
    match env.readFile path with
    | .ok b => .ok b
    | .error e => if e = FileErr.notExist then .ok "" else .ok ""

/-- `cacheSet`: writes the value to the cache file (directory creation
and write failures folded into one write outcome). -/
def cacheSet (env : CacheEnv) (key value : String) : Except String Unit :=
  match cachePath env key with
  | .error e => .error e
  | .ok path => env.writeFile path value

/-- `cacheKey`: hex of the concatenated SHA-256 digests of the keys. -/
def cacheKeyOf (env : CacheEnv) (keys : List String) : String :=
  String.join (keys.map env.digest)

/-- Whitespace as recognized by Go `unicode.IsSpace` in the Latin-1
range. -/
def isGoSpace (c : Char) : Bool :=
  c = ' ' ∨ c = '\t' ∨ c = '\n' ∨ c = '\r' ∨ c = '\x0b' ∨ c = '\x0c'
    ∨ c = '\u0085' ∨ c = '\u00A0'

/-- `strings.Fields`: split on whitespace, dropping empty fields. -/
def fieldsOf (line : String) : List String :=
  ((splitPred isGoSpace line.toList).map String.mk).filter (fun f => f ≠ "")

/-- Go `strings.Split(s, "\n")`. -/
def splitLines (s : String) : List String :=
  (splitChar '\n' s.toList).map String.mk

/-- The line scan of `computeBazelBinDir`: the first line with exactly
two fields whose first is `bazel-bin:` yields the second. -/
def findBazelBin : List String → Option String
  | [] => none
  | line :: rest =>
    match fieldsOf line with
    | [k, v] => if k = "bazel-bin:" then some v else findBazelBin rest
    | _ => findBazelBin rest

/-- The environment of the resolver: the on-disk cache, the combined
output of `bazel info --show_make_env` (or its failure), and the target
of the `bazel-bin` convenience symlink in the workspace when one
exists.  The symlink field records the state of the workspace; nothing
in the source reads it. -/
structure BinEnv where
  cache : CacheEnv
  bazelInfoOutput : Except String String
  symlinkTarget : Option String

/-- `computeBazelBinDir`: run `bazel info --show_make_env` and scan its
output; a missing `bazel-bin` entry is an error. -/
def computeBazelBinDir (env : BinEnv) : Except String String :=
  match env.bazelInfoOutput with
  | .error e => .error e
  | .ok out =>
    match findBazelBin (splitLines out) with
    | some v => .ok v
    | none => .error "missing 'bazel-bin' entry in `bazel info --show_make_env`"

/-- `getBazelBinDir`: consult the on-disk cache; on a non-empty hit
return it, otherwise compute via `bazel info` and store the value. -/
def getBazelBinDir (env : BinEnv) (workspaceRoot : String) : Except String String :=
  match cacheGet env.cache (cacheKeyOf env.cache ["bazel-bin", workspaceRoot]) with
  | .error e => .error e
  | .ok cached =>
    if cached ≠ "" then .ok cached
    else
      match computeBazelBinDir env with
      | .error e => .error e
      | .ok value =>
        match cacheSet env.cache (cacheKeyOf env.cache ["bazel-bin", workspaceRoot]) value with
        | .error e => .error e
        | .ok _ => .ok value

/-! ## Workspace check and the main loop -/

/-- The workspace marker files accepted by `copyGeneratedProtos`. -/
def workspaceMarkers : List String := ["WORKSPACE", "WORKSPACE.bazel", "MODULE.bazel"]

/-- The workspace validation at the top of `copyGeneratedProtos`:
at least one marker file must exist under the root. -/
def checkWorkspace (hasFile : String → Bool) (root : String) : Bool :=
  workspaceMarkers.any (fun f => hasFile (joinPath root f))

/-- `copyGeneratedProtos`, with everything after the workspace check
abstracted as `runRest`: an unrecognized workspace is an error. -/
def copyGeneratedProtosCheck (hasFile : String → Bool)
    (runRest : String → Except String SyncResult) (root : String) :
    Except String SyncResult :=
  if checkWorkspace hasFile root then runRest root
  else .error (quoteStr root ++ " does not appear to be a Bazel workspace")

/-- The loop of `main` over the workspace-root arguments: each root is
synced in turn; an error calls `fatalf`, which prints the message and
exits the process, so no further root is processed.  Returns the
results of the completed roots and the fatal message, if any. -/
def mainLoop (runOne : String → Except String SyncResult) :
    List String → List (String × SyncResult) × Option String
  | [] => ([], none)
  | d :: ds =>
    match runOne d with
    | .error e => ([], some ("failed to sync protos for workspace " ++ d ++ ": " ++ e))
    | .ok r =>
      let rest := mainLoop runOne ds
      ((d, r) :: rest.1, rest.2)

/-! ## C9: empty artifact aborts the sync -/

/-- C9: when a pair's artifact exists with zero bytes, the sync aborts
at that pair with the fatal message naming the source proto file; the
error return carries no updated counters, so neither counter is
incremented for that pair. -/
theorem c9_empty_artifact_fatal (art : Fs) (protoFile : String) (p : SrcAndDest)
    (ps : List SrcAndDest) (fs : Fs) (res : SyncResult)
    (hsrc : art p.src = some []) :
    syncPairList protoFile art none (p :: ps) fs res =
      .error ("file is unexpectedly empty: " ++ protoFile) := by
  simp [syncPairList, hsrc]

/-- Artifact tree holding one empty generated file, for the C9 witness. -/
def artEmptyW : Fs := fun s => if s = "/bin/pkg/gen.pb.go" then some [] else none

/-- C9 witness: a concrete empty artifact yields the fatal message. -/
theorem c9_witness :
    syncPairList "/ws/pkg/thing.proto" artEmptyW none
      [{ src := "/bin/pkg/gen.pb.go", dest := "/ws/pkg/gen.pb.go" }] (fun _ => none) ⟨0, 0⟩ =
      .error ("file is unexpectedly empty: " ++ "/ws/pkg/thing.proto") :=
  c9_empty_artifact_fatal artEmptyW "/ws/pkg/thing.proto"
    { src := "/bin/pkg/gen.pb.go", dest := "/ws/pkg/gen.pb.go" } [] (fun _ => none) ⟨0, 0⟩
    (by simp [artEmptyW])

/-! ## C2: a locator error is silently dropped by the rule loop

`syncProto` binds `srcAndDestPaths, err := rule.getSrcAndDest(...)` and
checks `err` only inside `for _, srcAndDest := range srcAndDestPaths`;
when the locator fails it returns a nil slice, so the loop body never
runs and the error is discarded. -/

/-- Glob environment returning no matches, used by concrete inputs. -/
def globNone : String → Except String (List String) := fun _ => .ok []

/-- A `go_proto_library` rule whose import path has no recognized
repository-hosting form, so the locator cannot derive a destination. -/
def badGoRule : LanguageProtoRule :=
  { kind := goProtoLibrary, name := "foo_go_proto", protoRuleName := "foo_proto",
    importPath := "example.com/foo/bar" }

/-- Empty workspace tree, for concrete inputs. -/
def fsNone : Fs := fun _ => none

/-- C2: at the failing input — a Go-kind rule with import path
`example.com/foo/bar` — the locator does return the hard error, but the
rule loop of `syncProto` completes successfully with both counters
unchanged: the error is dropped, not surfaced. -/
theorem c2_locator_error_dropped :
    (getSrcAndDest globNone badGoRule "/ws" "/bin" "/ws/pkg/foo.proto").2 =
      some ("could not figure out workspace relative path for import "
        ++ quoteStr "example.com/foo/bar") ∧
    (getSrcAndDest globNone badGoRule "/ws" "/bin" "/ws/pkg/foo.proto").1 = [] ∧
    syncRules globNone fsNone "/ws" "/bin" "/ws/pkg/foo.proto" [badGoRule] fsNone ⟨0, 0⟩ =
      .ok (fsNone, ⟨0, 0⟩) :=
  ⟨by decide, by decide, rfl⟩

/-! ## C10: non-not-exist cache read failures are silent misses -/

/-- C10: a cache-file read failure other than not-exist yields an empty
value with a nil error, exactly like a miss; `cacheGet` itself fails
only when computing the cache path fails. -/
theorem c10_cache_read_failure_is_miss (env : CacheEnv) (key path : String) (e : FileErr)
    (hp : cachePath env key = .ok path) (hr : env.readFile path = .error e)
    (hne : e ≠ FileErr.notExist) :
    cacheGet env key = .ok "" ∧
    (∀ (env₂ : CacheEnv) (key₂ e₂ : String),
        cacheGet env₂ key₂ = .error e₂ → cachePath env₂ key₂ = .error e₂) := by
  constructor
  · simp only [cacheGet, hp, hr]
    split <;> rfl
  · intro env₂ key₂ e₂ h
    cases hc : cachePath env₂ key₂ with
    | error e₃ =>
      simp only [cacheGet, hc] at h
      exact h
    | ok p₂ =>
      cases hr₂ : env₂.readFile p₂ with
      | ok b => simp [cacheGet, hc, hr₂] at h
      | error e₃ =>
        simp only [cacheGet, hc, hr₂] at h
        by_cases hcase : e₃ = FileErr.notExist <;> simp [hcase] at h

/-- A cache environment whose cache file read fails with a permission
error, for the C10 witness. -/
def cacheEnvPerm : CacheEnv :=
  { userCacheDir := .ok "/home/u/.cache", digest := fun s => s,
    readFile := fun _ => .error .permission, writeFile := fun _ _ => .ok () }

/-- C10 witness: the permission failure is reported as a plain miss. -/
theorem c10_witness : cacheGet cacheEnvPerm "somekey" = .ok "" :=
  (c10_cache_read_failure_is_miss cacheEnvPerm "somekey"
    "/home/u/.cache/pbsync/somekey" .permission (by decide) rfl (by decide)).1

/-! ## C5: an earlier root's configuration error aborts the run

`main` calls `fatalf` — which exits the process — as soon as
`copyGeneratedProtos` fails for a root, so later roots are never
processed. -/

/-- File-existence oracle: only `/good` holds a workspace marker. -/
def hasFileW : String → Bool := fun p => p = "/good/WORKSPACE"

/-- The per-root runner built from the workspace check, with the rest
of the sync succeeding trivially. -/
def runOneW : String → Except String SyncResult :=
  copyGeneratedProtosCheck hasFileW (fun _ => .ok ⟨0, 0⟩)

/-- C5 counterexample: with roots `["/bad", "/good"]` where `/bad` is
not a workspace and `/good` is, the invocation aborts on `/bad` and the
list of processed roots is empty — `/good` is never processed, contrary
to the claim that sibling roots still run to completion. -/
theorem c5_counterexample :
    (mainLoop runOneW ["/bad", "/good"]).1 = [] ∧
    (mainLoop runOneW ["/bad", "/good"]).2 =
      some ("failed to sync protos for workspace /bad: \"/bad\" does not appear to be a Bazel workspace") := by
  decide

/-- C5 (amended): an error for an earlier workspace root makes `main`
exit with a fatal message naming that root and the cause; no later root
is processed. -/
theorem c5_amended_first_error_aborts (runOne : String → Except String SyncResult)
    (d : String) (ds : List String) (e : String) (h : runOne d = .error e) :
    mainLoop runOne (d :: ds) =
      ([], some ("failed to sync protos for workspace " ++ d ++ ": " ++ e)) := by
  simp [mainLoop, h]

/-- C5 witness: the amended behaviour at the concrete two-root input. -/
theorem c5_witness :
    mainLoop runOneW ["/bad", "/good"] =
      ([], some ("failed to sync protos for workspace /bad: "
        ++ "\"/bad\" does not appear to be a Bazel workspace")) :=
  c5_amended_first_error_aborts runOneW "/bad" ["/good"]
    ("\"/bad\" does not appear to be a Bazel workspace") (by decide)

/-! ## C7: Go-kind destination derivation -/

/-- C7: for a `go_proto_library` rule with import path
`github.com/org/repo/pkg/sub`, the locator strips the
`github.com/org/repo/` hosting part, succeeds, and maps every
artifact the glob finds to `workspaceRoot/pkg/sub/<base name>`. -/
theorem c7_go_dest_derivation (glob : String → Except String (List String))
    (ws bin protoPath name prn : String) (srcs : List String)
    (hg : glob (joinPath (joinPath (joinPath bin (dirName (trimPre protoPath ws)))
        (name ++ "_")) "github.com/org/repo/pkg/sub" ++ "/*.pb.go") = .ok srcs) :
    getSrcAndDest glob
      { kind := goProtoLibrary, name := name, protoRuleName := prn,
        importPath := "github.com/org/repo/pkg/sub" } ws bin protoPath =
      (srcs.map (fun src =>
        { src := src, dest := joinPath (joinPath ws "pkg/sub") (baseName src) }), none) := by
  have hs : stripGithubRepo "github.com/org/repo/pkg/sub" = "pkg/sub" := by decide
  have hne : ¬ (("pkg/sub" : String) = "github.com/org/repo/pkg/sub") := by decide
  simp [getSrcAndDest, hs, hne, hg]

/-- Glob environment returning the single generated Go file, for the
C7 witness. -/
def globOneW : String → Except String (List String) :=
  fun _ => .ok ["/bin/pkg/sub/foo_go_proto_/github.com/org/repo/pkg/sub/thing.pb.go"]

/-- C7 witness: the concrete destination lands in `/ws/pkg/sub`. -/
theorem c7_witness :
    getSrcAndDest globOneW
      { kind := goProtoLibrary, name := "foo_go_proto", protoRuleName := "foo_proto",
        importPath := "github.com/org/repo/pkg/sub" } "/ws" "/bin" "/ws/pkg/sub/thing.proto" =
      ([{ src := "/bin/pkg/sub/foo_go_proto_/github.com/org/repo/pkg/sub/thing.pb.go",
          dest := "/ws/pkg/sub/thing.pb.go" }], none) := by
  have h := c7_go_dest_derivation globOneW "/ws" "/bin" "/ws/pkg/sub/thing.proto"
    "foo_go_proto" "foo_proto"
    ["/bin/pkg/sub/foo_go_proto_/github.com/org/repo/pkg/sub/thing.pb.go"] rfl
  exact h.trans (by decide)

/-! ## C6: bazel-bin resolution order -/

/-- Cache environment whose persisted cache is empty (every read misses),
for the C6 counterexample. -/
def cacheEnvMiss : CacheEnv :=
  { userCacheDir := .ok "/home/u/.cache", digest := fun s => s,
    readFile := fun _ => .error .notExist, writeFile := fun _ _ => .ok () }

/-- Resolver environment in which the workspace does hold a `bazel-bin`
convenience symlink, and the external query would answer a different
directory. -/
def binEnvSymlink : BinEnv :=
  { cache := cacheEnvMiss,
    bazelInfoOutput := .ok "bazel-bin: /root/.cache/bazel/out/bazel-bin\n",
    symlinkTarget := some "/ws/bazel-bin" }

/-- C6 counterexample: a convenience symlink is present, yet the
resolver answers with the external query's value, not the symlink's
target — the claimed trust-the-symlink-first strategy does not hold. -/
theorem c6_counterexample :
    binEnvSymlink.symlinkTarget = some "/ws/bazel-bin" ∧
    getBazelBinDir binEnvSymlink "/ws" = .ok "/root/.cache/bazel/out/bazel-bin" ∧
    (Except.ok "/root/.cache/bazel/out/bazel-bin" : Except String String) ≠ .ok "/ws/bazel-bin" := by
  decide

/-- C6 (amended): the resolver first consults the persisted on-disk
cache and trusts a non-empty cached value; it never consults the
convenience symlink (the result is independent of it); only on a cache
miss does it invoke the external query, and absence of the `bazel-bin`
entry in the query output is an error. -/
theorem c6_amended_cache_then_query (cenv : CacheEnv) (q : Except String String)
    (sym sym₂ : Option String) (ws v : String) :
    (cacheGet cenv (cacheKeyOf cenv ["bazel-bin", ws]) = .ok v → v ≠ "" →
        getBazelBinDir ⟨cenv, q, sym⟩ ws = .ok v) ∧
    getBazelBinDir ⟨cenv, q, sym⟩ ws = getBazelBinDir ⟨cenv, q, sym₂⟩ ws ∧
    (∀ out, cacheGet cenv (cacheKeyOf cenv ["bazel-bin", ws]) = .ok "" → q = .ok out →
        findBazelBin (splitLines out) = none →
        getBazelBinDir ⟨cenv, q, sym⟩ ws =
          .error "missing 'bazel-bin' entry in `bazel info --show_make_env`") := by
  refine ⟨?_, rfl, ?_⟩
  · intro h hne
    simp [getBazelBinDir, h, hne]
  · intro out h hq hf
    simp [getBazelBinDir, h, computeBazelBinDir, hq, hf]

/-- Resolver environment whose query output lacks a `bazel-bin` entry,
for the C6 witness. -/
def binEnvNoEntry : BinEnv :=
  { cache := cacheEnvMiss, bazelInfoOutput := .ok "INFO: nothing relevant",
    symlinkTarget := none }

/-- C6 witness: a cache miss with an entry-less query output is an
error naming the missing entry. -/
theorem c6_witness :
    getBazelBinDir binEnvNoEntry "/ws" =
      .error "missing 'bazel-bin' entry in `bazel info --show_make_env`" :=
  (c6_amended_cache_then_query cacheEnvMiss (.ok "INFO: nothing relevant") none none
    "/ws" "").2.2 "INFO: nothing relevant" (by decide) rfl (by decide)

/-! ## C3: the parser cache parses each path once -/

/-- Later calls for a memoized path return the cached result without
reparsing and leave the state unchanged. -/
theorem parseSeq_cached (parseFn : String → Except String ParsedBuildFile)
    (path : String) (r : Except String ParsedBuildFile) (st : ParserState)
    (h : st.cache path = some r) (n : Nat) :
    parseSeq parseFn st (List.replicate n path) = (List.replicate n r, st, 0) := by
  induction n with
  | zero => simp [parseSeq]
  | succ m ih => simp [List.replicate_succ, parseSeq, parseStep, h, ih]

/-- C3: for any number `n ≥ 1` of `Parse` requests for one rule-file
path — `singleflight` serializes same-key executions, so any schedule
is a sequence of atomic calls — the underlying parse runs exactly once,
every caller receives the identical result (the parsed file, or the
identical failure), and the result stays memoized. -/
theorem c3_parse_once_memoized (parseFn : String → Except String ParsedBuildFile)
    (path : String) (n : Nat) (hn : 1 ≤ n) :
    (parseSeq parseFn newBuildFileParser (List.replicate n path)).1 =
        List.replicate n (parseFn path) ∧
    (parseSeq parseFn newBuildFileParser (List.replicate n path)).2.2 = 1 ∧
    (parseSeq parseFn newBuildFileParser (List.replicate n path)).2.1.cache path =
        some (parseFn path) := by
  obtain ⟨m, rfl⟩ : ∃ m, n = m + 1 := ⟨n - 1, by omega⟩
  have hstep : parseStep parseFn newBuildFileParser path =
      (parseFn path,
       ⟨fun q => if q = path then some (parseFn path) else none⟩, 1) := by
    simp [parseStep, newBuildFileParser]
  have hcache :
      (ParserState.mk (fun q => if q = path then some (parseFn path) else none)).cache path =
        some (parseFn path) := by simp
  have hrest := parseSeq_cached parseFn path (parseFn path) _ hcache m
  refine ⟨?_, ?_, ?_⟩ <;>
    simp [List.replicate_succ, parseSeq, hstep, hrest, hcache]

/-- An underlying parse that always fails, for the C3 witness: even a
failure is computed once and served to every caller. -/
def parseFnBoom : String → Except String ParsedBuildFile := fun _ => .error "boom"

/-- C3 witness: three requests for one path — one parse, three
identical failures. -/
theorem c3_witness :
    (parseSeq parseFnBoom newBuildFileParser (List.replicate 3 "pkg/BUILD")).1 =
        List.replicate 3 (Except.error "boom") ∧
    (parseSeq parseFnBoom newBuildFileParser (List.replicate 3 "pkg/BUILD")).2.2 = 1 :=
  ⟨(c3_parse_once_memoized parseFnBoom "pkg/BUILD" 3 (by decide)).1,
   (c3_parse_once_memoized parseFnBoom "pkg/BUILD" 3 (by decide)).2.1⟩

/-! ## C8: non-local proto references are skipped -/

/-- Removing a known-kind rule whose `proto` reference is non-empty and
not colon-prefixed does not change the generator index at all. -/
theorem addLangRules_skip_middle (path : String) (r : BuildRule)
    (hk : r.kind = goProtoLibrary ∨ r.kind = tsProtoLibrary)
    (hne : r.proto ≠ "") (hc : strPre ":" r.proto = false) (l₁ : List BuildRule) :
    ∀ (l₂ : List BuildRule) (m : String → Option (List LanguageProtoRule)),
      addLangRules path (l₁ ++ r :: l₂) m = addLangRules path (l₁ ++ l₂) m := by
  induction l₁ with
  | nil =>
    intro l₂ m
    have h1 : ¬ (r.kind ≠ goProtoLibrary ∧ r.kind ≠ tsProtoLibrary) := by
      rcases hk with h | h <;> simp [h]
    simp [addLangRules, h1, hne, hc]
  | cons h₁ t₁ ih =>
    intro l₂ m
    simp only [List.cons_append, addLangRules]
    split_ifs <;> first | rfl | exact ih _ _

/-- C8: a rule of a known generation kind whose proto reference is not
a same-file (colon-prefixed) reference is skipped without an error and
never enters the rule-file index: parsing the file with the rule gives
exactly the same result as parsing the file without it, so the rule can
never contribute a source/destination pair. -/
theorem c8_nonlocal_ref_skipped (path : String) (l₁ l₂ : List BuildRule) (r : BuildRule)
    (hk : r.kind = goProtoLibrary ∨ r.kind = tsProtoLibrary)
    (hne : r.proto ≠ "") (hc : strPre ":" r.proto = false) :
    parseBuildFile path (l₁ ++ r :: l₂) = parseBuildFile path (l₁ ++ l₂) := by
  have hnp : ¬ (r.kind = "proto_library") := by
    rcases hk with h | h <;> rw [h] <;> decide
  have hfil : (l₁ ++ r :: l₂).filter (fun x => x.kind = "proto_library")
      = (l₁ ++ l₂).filter (fun x => x.kind = "proto_library") := by
    simp [List.filter_append, List.filter_cons, hnp]
  unfold parseBuildFile
  rw [hfil, addLangRules_skip_middle path r hk hne hc l₁ l₂]

/-- A `go_proto_library` rule referencing a proto rule in another
package, for the C8 witness. -/
def c8RuleW : BuildRule :=
  { kind := "go_proto_library", name := "external_go_proto", srcs := none,
    proto := "//other/pkg:some_proto", importpath := "github.com/org/repo/pkg" }

/-- C8 witness: the cross-package rule contributes nothing. -/
theorem c8_witness :
    parseBuildFile "pkg/BUILD" [c8RuleW] = parseBuildFile "pkg/BUILD" [] :=
  c8_nonlocal_ref_skipped "pkg/BUILD" [] [] c8RuleW (Or.inl rfl) (by decide) (by decide)

/-! ## C1: content-equality gate and idempotence -/

/-- The pair loop never touches a destination path outside its pair
list. -/
theorem syncPairList_frame (protoFile : String) (art : Fs) (ps : List SrcAndDest) :
    ∀ (fs fs₂ : Fs) (res res₂ : SyncResult),
      syncPairList protoFile art none ps fs res = .ok (fs₂, res₂) →
      ∀ d, d ∉ ps.map SrcAndDest.dest → fs₂ d = fs d := by
  induction ps with
  | nil =>
    intro fs fs₂ res res₂ h d _
    simp only [syncPairList, Except.ok.injEq, Prod.mk.injEq] at h
    rw [h.1]
  | cons p ps ih =>
    intro fs fs₂ res res₂ h d hd
    have hd1 : d ≠ p.dest := by simp at hd; exact hd.1
    have hd2 : d ∉ ps.map SrcAndDest.dest := by simp at hd ⊢; exact hd.2
    simp only [syncPairList] at h
    cases hsrc : art p.src with
    | none =>
      rw [hsrc] at h
      exact ih fs fs₂ res res₂ h d hd2
    | some sb =>
      rw [hsrc] at h
      by_cases hsb : sb = []
      · simp [hsb] at h
      · simp only [if_neg hsb] at h
        by_cases heq : sb = (fs p.dest).getD []
        · simp only [if_pos heq] at h
          exact ih fs fs₂ _ res₂ h d hd2
        · simp only [if_neg heq] at h
          have := ih (updateFs fs p.dest sb) fs₂ _ res₂ h d hd2
          rw [this]
          simp [updateFs, hd1]

/-- After a successful pair loop with pairwise-distinct destinations,
every pair whose artifact exists holds exactly the artifact's bytes at
its destination. -/
theorem syncPairList_writes_dest (protoFile : String) (art : Fs) (ps : List SrcAndDest) :
    ∀ (fs fs₂ : Fs) (res res₂ : SyncResult),
      (ps.map SrcAndDest.dest).Nodup →
      syncPairList protoFile art none ps fs res = .ok (fs₂, res₂) →
      ∀ p ∈ ps, ∀ sb, art p.src = some sb → fs₂ p.dest = some sb := by
  induction ps with
  | nil => intro fs fs₂ res res₂ _ _ p hp; cases hp
  | cons q ps ih =>
    intro fs fs₂ res res₂ hnd h p hp sb hsb
    rw [List.map_cons, List.nodup_cons] at hnd
    obtain ⟨hq, hnd2⟩ := hnd
    simp only [syncPairList] at h
    cases hsrc : art q.src with
    | none =>
      rw [hsrc] at h
      rcases List.mem_cons.mp hp with rfl | hp2
      · rw [hsrc] at hsb; cases hsb
      · exact ih fs fs₂ res res₂ hnd2 h p hp2 sb hsb
    | some sb₀ =>
      rw [hsrc] at h
      by_cases hsb₀ : sb₀ = []
      · simp [hsb₀] at h
      · simp only [if_neg hsb₀] at h
        by_cases heq : sb₀ = (fs q.dest).getD []
        · simp only [if_pos heq] at h
          rcases List.mem_cons.mp hp with rfl | hp2
          · have hfs2 : fs₂ p.dest = fs p.dest :=
              syncPairList_frame protoFile art ps fs fs₂ _ res₂ h p.dest hq
            rw [hsrc] at hsb
            cases hsb
            rw [hfs2]
            cases hfd : fs p.dest with
            | none => rw [hfd] at heq; simp at heq; exact absurd heq hsb₀
            | some db => rw [hfd] at heq; simp at heq; rw [heq]
          · exact ih fs fs₂ _ res₂ hnd2 h p hp2 sb hsb
        · simp only [if_neg heq] at h
          rcases List.mem_cons.mp hp with rfl | hp2
          · have hfs2 : fs₂ p.dest = updateFs fs p.dest sb₀ p.dest :=
              syncPairList_frame protoFile art ps _ fs₂ _ res₂ h p.dest hq
            rw [hsrc] at hsb
            cases hsb
            rw [hfs2]
            simp [updateFs]
          · exact ih (updateFs fs q.dest sb₀) fs₂ _ res₂ hnd2 h p hp2 sb hsb

/-- A successful pair loop never saw an empty existing artifact. -/
theorem syncPairList_ok_no_empty (protoFile : String) (art : Fs) (ps : List SrcAndDest) :
    ∀ (fs fs₂ : Fs) (res res₂ : SyncResult),
      syncPairList protoFile art none ps fs res = .ok (fs₂, res₂) →
      ∀ p ∈ ps, art p.src ≠ some [] := by
  induction ps with
  | nil => intro fs fs₂ res res₂ _ p hp; cases hp
  | cons q ps ih =>
    intro fs fs₂ res res₂ h p hp
    simp only [syncPairList] at h
    cases hsrc : art q.src with
    | none =>
      rw [hsrc] at h
      rcases List.mem_cons.mp hp with rfl | hp2
      · rw [hsrc]; simp
      · exact ih fs fs₂ res res₂ h p hp2
    | some sb₀ =>
      rw [hsrc] at h
      by_cases hsb₀ : sb₀ = []
      · simp [hsb₀] at h
      · simp only [if_neg hsb₀] at h
        rcases List.mem_cons.mp hp with rfl | hp2
        · rw [hsrc]; simp [hsb₀]
        · by_cases heq : sb₀ = (fs q.dest).getD []
          · simp only [if_pos heq] at h
            exact ih fs fs₂ _ res₂ h p hp2
          · simp only [if_neg heq] at h
            exact ih (updateFs fs q.dest sb₀) fs₂ _ res₂ h p hp2

/-- Unfolding of `countExisting` over a cons cell. -/
theorem countExisting_cons (art : Fs) (p : SrcAndDest) (ps : List SrcAndDest) :
    countExisting art (p :: ps) =
      (if (art p.src).isSome then 1 else 0) + countExisting art ps := by
  simp only [countExisting, List.filter_cons]
  split <;> simp [Nat.add_comm]

/-- When every existing artifact is non-empty and already mirrored at
its destination, the pair loop changes nothing and counts every
existing artifact as up to date. -/
theorem syncPairList_all_up_to_date (protoFile : String) (art : Fs) (ps : List SrcAndDest) :
    ∀ (fs : Fs) (res : SyncResult),
      (∀ p ∈ ps, ∀ sb, art p.src = some sb → sb ≠ [] ∧ fs p.dest = some sb) →
      syncPairList protoFile art none ps fs res =
        .ok (fs, ⟨res.created, res.upToDate + countExisting art ps⟩) := by
  induction ps with
  | nil =>
    intro fs res _
    simp [syncPairList, countExisting]
  | cons q ps ih =>
    intro fs res hinv
    cases hsrc : art q.src with
    | none =>
      have hrec := ih fs res (fun p hp => hinv p (List.mem_cons_of_mem q hp))
      simp only [syncPairList, hsrc, hrec, countExisting_cons]
      simp
    | some sb =>
      obtain ⟨hne, hdest⟩ := hinv q (List.mem_cons_self q ps) sb hsrc
      have hdb : (fs q.dest).getD [] = sb := by rw [hdest]; rfl
      have hrec := ih fs ⟨res.created, res.upToDate + 1⟩
        (fun p hp => hinv p (List.mem_cons_of_mem q hp))
      simp only [syncPairList, hsrc, hdb, if_neg hne, if_pos rfl, hrec,
        countExisting_cons]
      simp [Nat.add_assoc]

/-- C1: with a non-empty existing artifact, byte-equality of the
destination means no write and one up-to-date increment; any
difference (or an absent destination) means the destination is
overwritten with the artifact's exact bytes and one written increment.
Consequently a second pass over the same pairs — destinations being
pairwise distinct — against unchanged build output performs zero writes
and counts every pair whose artifact exists as up to date. -/
theorem c1_content_gate_and_idempotence (art : Fs) (protoFile : String)
    (p : SrcAndDest) (sb : Bytes) (fs : Fs) (res : SyncResult)
    (hsrc : art p.src = some sb) (hne : sb ≠ []) :
    ((fs p.dest).getD [] = sb →
        syncPairList protoFile art none [p] fs res =
          .ok (fs, ⟨res.created, res.upToDate + 1⟩)) ∧
    ((fs p.dest).getD [] ≠ sb →
        syncPairList protoFile art none [p] fs res =
          .ok (updateFs fs p.dest sb, ⟨res.created + 1, res.upToDate⟩)) ∧
    (∀ (pairs : List SrcAndDest) (fs₀ fs₁ : Fs) (res₀ res₁ : SyncResult),
        (pairs.map SrcAndDest.dest).Nodup →
        syncPairList protoFile art none pairs fs₀ res₀ = .ok (fs₁, res₁) →
        syncPairList protoFile art none pairs fs₁ res₁ =
          .ok (fs₁, ⟨res₁.created, res₁.upToDate + countExisting art pairs⟩)) := by
  refine ⟨?_, ?_, ?_⟩
  · intro heq
    simp [syncPairList, hsrc, hne, heq]
  · intro hneq
    have : ¬ (sb = (fs p.dest).getD []) := fun hh => hneq hh.symm
    simp [syncPairList, hsrc, hne, this]
  · intro pairs fs₀ fs₁ res₀ res₁ hnd hrun
    refine syncPairList_all_up_to_date protoFile art pairs fs₁ res₁ ?_
    intro q hq sb₀ hsb₀
    refine ⟨?_, syncPairList_writes_dest protoFile art pairs fs₀ fs₁ res₀ res₁ hnd hrun q hq sb₀ hsb₀⟩
    intro hempty
    exact syncPairList_ok_no_empty protoFile art pairs fs₀ fs₁ res₀ res₁ hrun q hq
      (hempty ▸ hsb₀)

/-- Artifact tree with one non-empty generated file, for the C1
witness. -/
def artOneW : Fs := fun s => if s = "/bin/pkg/gen.pb.go" then some [104, 105] else none

/-- C1 witness: an absent destination is written with the artifact's
bytes and counted as created. -/
theorem c1_witness :
    syncPairList "/ws/pkg/thing.proto" artOneW none
      [{ src := "/bin/pkg/gen.pb.go", dest := "/ws/pkg/gen.pb.go" }] fsNone ⟨0, 0⟩ =
      .ok (updateFs fsNone "/ws/pkg/gen.pb.go" [104, 105], ⟨1, 0⟩) := by
  have h := c1_content_gate_and_idempotence artOneW "/ws/pkg/thing.proto"
    { src := "/bin/pkg/gen.pb.go", dest := "/ws/pkg/gen.pb.go" } [104, 105] fsNone ⟨0, 0⟩
    (by simp [artOneW]) (by simp)
  exact h.2.1 (by simp [fsNone])

/-! ## C4: duplicate proto ownership

The duplicate test in `parseBuildFile` is `protoFileToRule[src] != ""`.
A claimed source therefore goes undetected when the claiming rule's
name is the empty string (a `proto_library` without a `name`
attribute), and ownership silently resolves to the later rule. -/

/-- Rules exhibiting the gap: the first `proto_library` has no name, so
its claim on `a.proto` is invisible to the duplicate check. -/
def c4Rules : List BuildRule :=
  [ { kind := "proto_library", name := "", srcs := some ["a.proto"],
      proto := "", importpath := "" },
    { kind := "proto_library", name := "second_proto", srcs := some ["a.proto"],
      proto := "", importpath := "" } ]

/-- C4 counterexample: `a.proto` appears in the `srcs` of two distinct
`proto_library` rules, yet parsing succeeds and silently maps the
source to the second rule — no fatal parse error. -/
theorem c4_counterexample :
    parsedMap (parseBuildFile "pkg/BUILD" c4Rules) "a.proto" = some "second_proto" := by
  decide

/-- A claim on a source survives the rest of one rule's `srcs` loop. -/
theorem addSrcs_mono (path n : String) (ss : List String) :
    ∀ (m m₂ : String → Option String), addSrcs path n ss m = .ok m₂ →
      ∀ s, ((m s).getD "") ≠ "" → ((m₂ s).getD "") ≠ "" := by
  induction ss with
  | nil =>
    intro m m₂ h s hs
    simp only [addSrcs, Except.ok.injEq] at h
    rw [← h]; exact hs
  | cons t ts ih =>
    intro m m₂ h s hs
    simp only [addSrcs] at h
    by_cases hdup : ((m (trimColon t)).getD "") ≠ ""
    · simp [hdup] at h
    · simp only [if_neg hdup] at h
      refine ih _ m₂ h s ?_
      by_cases hst : s = trimColon t
      · exact absurd (hst ▸ hs) hdup
      · simpa [hst] using hs

/-- Processing a rule with a non-empty name records a non-empty claim
for each of its sources. -/
theorem addSrcs_claims (path n : String) (hn : n ≠ "") (ss : List String) :
    ∀ (m m₂ : String → Option String), addSrcs path n ss m = .ok m₂ →
      ∀ s, s ∈ ss.map trimColon → ((m₂ s).getD "") ≠ "" := by
  induction ss with
  | nil => intro m m₂ _ s hs; cases hs
  | cons t ts ih =>
    intro m m₂ h s hs
    simp only [addSrcs] at h
    by_cases hdup : ((m (trimColon t)).getD "") ≠ ""
    · simp [hdup] at h
    · simp only [if_neg hdup] at h
      rcases List.mem_cons.mp hs with rfl | hs2
      · refine addSrcs_mono path n ts _ m₂ h _ ?_
        simp [hn]
      · exact ih _ m₂ h s hs2

/-- A source already claimed under a non-empty name makes any rule that
lists it again fail. -/
theorem addSrcs_conflict (path n : String) (ss : List String) :
    ∀ (m : String → Option String) (s : String), ((m s).getD "") ≠ "" →
      s ∈ ss.map trimColon → ∀ m₂, addSrcs path n ss m ≠ .ok m₂ := by
  induction ss with
  | nil => intro m s _ hs; cases hs
  | cons t ts ih =>
    intro m s hclaim hs m₂ h
    simp only [addSrcs] at h
    by_cases hdup : ((m (trimColon t)).getD "") ≠ ""
    · simp [hdup] at h
    · simp only [if_neg hdup] at h
      have hst : ¬ s = trimColon t := fun hh => hdup (hh ▸ hclaim)
      rcases List.mem_cons.mp hs with heq | hs2
      · exact hst heq
      · refine ih _ s ?_ hs2 m₂ h
        simpa [hst] using hclaim

/-- A claim on a source survives a whole run of the first parse loop. -/
theorem addProtoRules_mono (path : String) (rs : List BuildRule) :
    ∀ (m m₂ : String → Option String), addProtoRules path rs m = .ok m₂ →
      ∀ s, ((m s).getD "") ≠ "" → ((m₂ s).getD "") ≠ "" := by
  induction rs with
  | nil =>
    intro m m₂ h s hs
    simp only [addProtoRules, Except.ok.injEq] at h
    rw [← h]; exact hs
  | cons r rest ih =>
    intro m m₂ h s hs
    cases hsr : r.srcs with
    | none => simp [addProtoRules, hsr] at h
    | some ss =>
      simp only [addProtoRules, hsr] at h
      cases ha : addSrcs path r.name ss m with
      | error e => simp only [ha] at h; cases h
      | ok mm =>
        simp only [ha] at h
        exact ih mm m₂ h s (addSrcs_mono path r.name ss m mm ha s hs)

/-- The first parse loop over a concatenation decomposes into two
successful runs. -/
theorem addProtoRules_split (path : String) (xs : List BuildRule) :
    ∀ (ys : List BuildRule) (m m₂ : String → Option String),
      addProtoRules path (xs ++ ys) m = .ok m₂ →
      ∃ mm, addProtoRules path xs m = .ok mm ∧ addProtoRules path ys mm = .ok m₂ := by
  induction xs with
  | nil =>
    intro ys m m₂ h
    exact ⟨m, rfl, h⟩
  | cons r rest ih =>
    intro ys m m₂ h
    cases hsr : r.srcs with
    | none => simp [List.cons_append, addProtoRules, hsr] at h
    | some ss =>
      simp only [List.cons_append, addProtoRules, hsr] at h ⊢
      cases ha : addSrcs path r.name ss m with
      | error e => simp only [ha] at h; cases h
      | ok mm =>
        simp only [ha] at h
        exact ih ys mm m₂ h

/-- C4 (amended): when the same source name appears in the `srcs` of
two distinct `proto_library` rules and the earlier claiming rule's
name is non-empty, parsing fails.  (The counterexample shows the
earlier rule's name must be non-empty: an unnamed rule's claim is
invisible to the duplicate check and ownership silently resolves to
the later rule.) -/
theorem c4_amended_dup_src_is_error (path : String) (rules l₁ l₂ l₃ : List BuildRule)
    (r₁ r₂ : BuildRule) (s : String)
    (hsplit : rules.filter (fun r => r.kind = "proto_library") =
        l₁ ++ r₁ :: (l₂ ++ r₂ :: l₃))
    (hn : r₁.name ≠ "")
    (h₁ : s ∈ ((r₁.srcs.getD []).map trimColon))
    (h₂ : s ∈ ((r₂.srcs.getD []).map trimColon)) :
    isOk (parseBuildFile path rules) = false := by
  suffices hh : ∀ m₂, addProtoRules path
      (rules.filter (fun r => r.kind = "proto_library")) (fun _ => none) ≠ .ok m₂ by
    unfold parseBuildFile
    cases hp : addProtoRules path
        (rules.filter (fun r => r.kind = "proto_library")) (fun _ => none) with
    | error e => simp [isOk]
    | ok m₂ => exact absurd hp (hh m₂)
  intro m₂ hok
  rw [hsplit] at hok
  obtain ⟨mA, _, hrest⟩ := addProtoRules_split path l₁ _ _ _ hok
  cases hsrcs₁ : r₁.srcs with
  | none => rw [hsrcs₁] at h₁; cases h₁
  | some ss₁ =>
    simp only [addProtoRules, hsrcs₁] at hrest
    cases haS : addSrcs path r₁.name ss₁ mA with
    | error e => simp only [haS] at hrest; cases hrest
    | ok mB =>
      simp only [haS] at hrest
      have hB : ((mB s).getD "") ≠ "" :=
        addSrcs_claims path r₁.name hn ss₁ mA mB haS s (by simpa [hsrcs₁] using h₁)
      obtain ⟨mC, hC, hrest₂⟩ := addProtoRules_split path l₂ _ mB m₂ hrest
      have hCclaim : ((mC s).getD "") ≠ "" := addProtoRules_mono path l₂ mB mC hC s hB
      cases hsrcs₂ : r₂.srcs with
      | none => rw [hsrcs₂] at h₂; cases h₂
      | some ss₂ =>
        simp only [addProtoRules, hsrcs₂] at hrest₂
        cases haS₂ : addSrcs path r₂.name ss₂ mC with
        | error e => simp only [haS₂] at hrest₂; cases hrest₂
        | ok mD =>
          exact addSrcs_conflict path r₂.name ss₂ mC s hCclaim
            (by simpa [hsrcs₂] using h₂) mD haS₂

/-- Rules with the duplicated source under two non-empty names, for the
C4 witness. -/
def c4wRules : List BuildRule :=
  [ { kind := "proto_library", name := "first_proto", srcs := some ["a.proto"],
      proto := "", importpath := "" },
    { kind := "proto_library", name := "second_proto", srcs := some ["a.proto"],
      proto := "", importpath := "" } ]

/-- C4 witness: with both rules named, the duplicate is a parse error. -/
theorem c4_witness : isOk (parseBuildFile "pkg/BUILD" c4wRules) = false :=
  c4_amended_dup_src_is_error "pkg/BUILD" c4wRules [] [] []
    { kind := "proto_library", name := "first_proto", srcs := some ["a.proto"],
      proto := "", importpath := "" }
    { kind := "proto_library", name := "second_proto", srcs := some ["a.proto"],
      proto := "", importpath := "" }
    "a.proto" (by decide) (by decide) (by decide) (by decide)

end Pbsync
